import Mathlib

/-!
# Verification of `aws_sso_flow` against its specification

A shallow embedding of the crate's core logic:

* `src/cache.rs` — the expiry-aware disk cache (`Cache::get_or_init`, the MD5
  fingerprint hasher, the cache error constructor);
* `src/sso_oidc.rs` — the device-authorization token client
  (`Client::create_token` with its polling loop);
* `src/flow.rs` — the error mapping performed by `SsoFlow::authenticate` for
  the token step, and the `SsoFlowError` taxonomy;
* `src/profile.rs` — the INI-style profile parser (`parse_profile`);
* `src/credentials.rs` — `SessionCredentials` and its `Debug` rendering;
* `src/builder.rs` — the type-state builder for `SsoFlow`.

Async effects (file reads/writes, remote calls, sleeps) are modelled by
explicit oracle records describing the outcome of each external interaction,
and each embedded operation additionally returns the trace of effects it
performed, so that frame properties ("the compute closure was never invoked",
"nothing was written") are directly statable.

Timestamps (`chrono::DateTime<Utc>`) are modelled as `Int` (seconds); only
their ordering and translation by the cache buffer matter to the code.
-/

namespace AwsSsoFlow

/-! ## Cache (src/cache.rs) -/

/-- `CACHE_BUFFER`: the fixed 60-second margin from src/cache.rs line 13. -/
def CACHE_BUFFER : Int := 60

/-- Outcome of `tokio::fs::read_to_string` on the cache file path. -/
inductive ReadResult where
  | ok (content : String)
  | notFound
  | otherError (msg : String)
deriving DecidableEq

/-- `cache::Error<E>` from src/cache.rs lines 82–85. -/
inductive CacheError (E : Type) where
  | cache (msg : String)
  | init (e : E)
deriving DecidableEq

/-- `cache::Error::cache` from src/cache.rs lines 88–99: formats
`"{msg} cache file {path} due to: {error}"`. -/
def cacheMsg (msg path err : String) : String :=
  msg ++ " cache file " ++ path ++ " due to: " ++ err

/-- Filesystem effects performed by `Cache::get_or_init`.  `writeFile` covers
the combined `create_dir_all` + `write` step (src/cache.rs lines 72–74). -/
inductive CacheEff where
  | readFile
  | initCall
  | writeFile
deriving DecidableEq

/-- `Cache` from src/cache.rs lines 15–18. -/
structure Cache where
  dir : Option String
  suffix : String

/-- The derived cache file path, from src/cache.rs lines 41–44:
`dir.flatten(format!("{}-{}.json", prefix, self.suffix))`. -/
def Cache.filePath (c : Cache) (pfx : String) : Option String :=
  c.dir.map (fun d => d ++ "/" ++ pfx ++ "-" ++ c.suffix ++ ".json")

/-- Oracle describing the environment of one `get_or_init` call: the outcome
of reading the cache file, the deserializer (`serde_json::from_str`, which on
failure yields an error message), the artifact's `Expiry` view, the current
time (`Utc::now()`), the result of the `init` closure, and the outcome of the
`create_dir_all` + `write` step (`none` = success, `some msg` = io error). -/
structure CacheEnv (T E : Type) where
  readFile : ReadResult
  parse : String → Except String T
  expires_at : T → Int
  now : Int
  init : Except E T
  write : Option String

/-- The compute-and-store phase of `get_or_init`, src/cache.rs lines 67–78:
run `init`; on success, if a path is configured, serialize and write
(failure becomes a cache error); return the value. -/
def initPhase {T E : Type} (path? : Option String) (env : CacheEnv T E)
    (effs : List CacheEff) : Except (CacheError E) T × List CacheEff :=
  match env.init with
  | .error e => (.error (.init e), effs ++ [.initCall])
  | .ok value =>
    match path? with
    | some path =>
      match env.write with
      | none => (.ok value, effs ++ [.initCall, .writeFile])
      | some werr =>
        (.error (.cache (cacheMsg "failed to write" path werr)),
          effs ++ [.initCall, .writeFile])
    | none => (.ok value, effs ++ [.initCall])

/-- `Cache::get_or_init` from src/cache.rs lines 31–79.  If a directory is
configured, try the cache file first: parse failure is a hard `corrupt` cache
error; a parsed value is returned iff `expires_at + CACHE_BUFFER > now`;
a read error other than not-found is a hard cache error; not-found falls
through.  Otherwise (or on fall-through) run the `init` phase. -/
def Cache.get_or_init {T E : Type} (c : Cache) (pfx : String)
    (env : CacheEnv T E) : Except (CacheError E) T × List CacheEff :=
  match c.filePath pfx with
  | some path =>
    match env.readFile with
    | .ok content =>
      match env.parse content with
      | .error perr =>
        (.error (.cache (cacheMsg "corrupt" path perr)), [.readFile])
      | .ok value =>
        if env.expires_at value + CACHE_BUFFER > env.now then
          (.ok value, [.readFile])
        else
          initPhase (some path) env [.readFile]
    | .otherError rerr =>
      (.error (.cache (cacheMsg "failed to read" path rerr)), [.readFile])
    | .notFound => initPhase (some path) env [.readFile]
  | none => initPhase none env []

/-- Concrete cache environment for the buffer-boundary evaluation: the cached
artifact parses successfully and expires at time 1059, with `now = 1000`,
i.e. exactly `now + CACHE_BUFFER - 1`; the compute closure would yield 42. -/
def bufferBoundaryEnv : CacheEnv Int String :=
  { readFile := .ok "cached"
    parse := fun _ => .ok 1059
    expires_at := fun v => v
    now := 1000
    init := .ok 42
    write := none }

/-! ## SSO OIDC client (src/sso_oidc.rs) and flow error mapping (src/flow.rs) -/

instance {ε α : Type} [DecidableEq ε] [DecidableEq α] :
    DecidableEq (Except ε α) := fun x y =>
  match x, y with
  | .ok a, .ok b =>
    if h : a = b then .isTrue (by rw [h]) else .isFalse (by simp [h])
  | .error a, .error b =>
    if h : a = b then .isTrue (by rw [h]) else .isFalse (by simp [h])
  | .ok _, .error _ => .isFalse (by simp)
  | .error _, .ok _ => .isFalse (by simp)

/-- `CreateTokenResponse` from src/sso_oidc.rs lines 152–156. -/
structure Token where
  access_token : String
  expires_at : Int
deriving DecidableEq

/-- `StartDeviceAuthorizationResponse` from src/sso_oidc.rs lines 193–199
(the verification URL is kept as a string; URL validity is checked upstream
by `TryFrom`, which is part of the `startAuth` oracle below). -/
structure Challenge where
  device_code : String
  interval : Nat
  user_code : String
  verification_uri_complete : String
deriving DecidableEq

/-- One remote reply to a `CreateToken` poll attempt, covering the four arms
of the match in src/sso_oidc.rs lines 68–78.  A `success` reply carries the
result of the `TryFrom` conversion (`res.try_into()`). -/
inductive PollReply where
  | success (conv : Except String Token)
  | authorizationPending
  | expiredToken
  | otherError (msg : String)
deriving DecidableEq

/-- `CreateTokenError<E>` from src/sso_oidc.rs lines 186–191. -/
inductive CreateTokenError (E : Type) where
  | api (msg : String)
  | verificationPrompt (e : E)
  | verificationPromptTimeout
deriving DecidableEq

/-- Observable events of the polling loop: a `CreateToken` attempt, or a
`tokio::time::sleep` for the given number of seconds. -/
inductive PollEv where
  | attempt
  | sleep (secs : Nat)
deriving DecidableEq

/-- Result of running the polling loop against a finite reply script:
either the loop finished with a result, or the script was exhausted (the
real loop would keep polling). -/
inductive PollOutcome (E : Type) where
  | done (r : Except (CreateTokenError E) Token)
  | outOfScript
deriving DecidableEq

/-- The polling loop of `Client::create_token`, src/sso_oidc.rs lines 67–80:
success breaks with the converted token (conversion failure is an `Api`
error); "authorization pending" sleeps for the challenge's interval and
retries; "expired token" returns `VerificationPromptTimeout`; any other
error is an `Api` error. -/
def pollLoop {E : Type} (interval : Nat) :
    List PollReply → PollOutcome E × List PollEv
  | [] => (.outOfScript, [])
  | .success conv :: _ =>
    match conv with
    | .ok tok => (.done (.ok tok), [.attempt])
    | .error m => (.done (.error (.api m)), [.attempt])
  | .authorizationPending :: rest =>
    ((pollLoop interval rest : PollOutcome E × List PollEv).1,
      .attempt :: .sleep interval ::
        (pollLoop interval rest : PollOutcome E × List PollEv).2)
  | .expiredToken :: _ =>
    (.done (.error .verificationPromptTimeout), [.attempt])
  | .otherError m :: _ => (.done (.error (.api m)), [.attempt])

/-- Oracle for one `Client::create_token` call: the outcome of
`start_device_authorization` (including its `TryFrom` validation), the
outcome of awaiting the verification prompt, and the script of remote
replies to successive `CreateToken` attempts. -/
structure CreateTokenEnv (E : Type) where
  startAuth : Except String Challenge
  promptResult : Except E Unit
  replies : List PollReply

/-- `Client::create_token` from src/sso_oidc.rs lines 36–81: start device
authorization (failure is an `Api` error), await the verification prompt
(failure is a `VerificationPrompt` error and polling never starts), then run
the polling loop with the challenge's interval. -/
def create_token {E : Type} (env : CreateTokenEnv E) :
    PollOutcome E × List PollEv :=
  match env.startAuth with
  | .error m => (.done (.error (.api m)), [])
  | .ok ch =>
    match env.promptResult with
    | .error e => (.done (.error (.verificationPrompt e)), [])
    | .ok _ => pollLoop ch.interval env.replies

/-- `SsoFlowError<P>` from src/flow.rs lines 222–244 (the message payloads of
`SsoApiError` / `SsoCacheError` are kept as the wrapped strings). -/
inductive SsoFlowError (P : Type) where
  | api (msg : String)
  | cache (msg : String)
  | verificationPrompt (e : P)
  | verificationPromptTimeout
deriving DecidableEq

/-- The error mapping of the token step of `SsoFlow::authenticate`,
src/flow.rs lines 128–139. -/
def tokenErrorToFlow {P : Type} :
    CacheError (CreateTokenError P) → SsoFlowError P
  | .init (.api m) => .api m
  | .init (.verificationPrompt e) => .verificationPrompt e
  | .init .verificationPromptTimeout => .verificationPromptTimeout
  | .cache m => .cache m

/-! ## Profile parsing (src/profile.rs) -/

/-- `Region` from src/region.rs: a wrapper around the `rusoto_core::Region`
enum, modelled by the enum's discriminant value (the only thing its derived
`Hash` feeds the hasher for non-`Custom` variants). -/
structure Region where
  disc : Nat
deriving DecidableEq

/-- `SsoConfig` from src/builder.rs lines 176–193. -/
structure SsoConfig where
  region : Region
  start_url : String
  account_id : String
  role_name : String
deriving DecidableEq

/-- Rust `str::trim_matches(' ')`: drop leading and trailing space
characters (spaces only, not tabs). -/
def trimSpaces (s : String) : String :=
  .mk (((s.data.dropWhile (· == ' ')).reverse.dropWhile (· == ' ')).reverse)

/-- Rust `str::trim()`: drop leading and trailing whitespace. -/
def trimWS (s : String) : String :=
  .mk (((s.data.dropWhile Char.isWhitespace).reverse.dropWhile
    Char.isWhitespace).reverse)

/-- Rust `str::strip_prefix`: `dropPre? p s` is `some` of the rest of `s`
when `p` leads `s`. -/
def dropPre? : List Char → List Char → Option (List Char)
  | [], s => some s
  | _ :: _, [] => none
  | p :: ps, c :: cs => if c == p then dropPre? ps cs else none

/-- Rust `str::strip_suffix`. -/
def dropSuf? (suf s : List Char) : Option (List Char) :=
  (dropPre? suf.reverse s.reverse).map List.reverse

/-- `parse_profile_name` from src/profile.rs lines 150–155: trim the line,
strip a trailing `]`, then strip a leading `[profile ` or, failing that,
a leading `[`. -/
def parse_profile_name (line : String) : Option String :=
  match dropSuf? [']'] (trimWS line).data with
  | none => none
  | some inner =>
    match dropPre? "[profile ".data inner with
    | some name => some (.mk name)
    | none => (dropPre? ['['] inner).map .mk

/-- Split a character list on a separator (used to model `str::lines`). -/
def splitOnChar (sep : Char) : List Char → List (List Char)
  | [] => [[]]
  | c :: cs =>
    match splitOnChar sep cs with
    | [] => [[]]
    | l :: ls => if c == sep then [] :: l :: ls else (c :: l) :: ls

/-- Rust `str::lines()`: split on `'\n'`, no trailing empty line, and strip
one trailing `'\r'` from each line. -/
def linesOf (s : String) : List String :=
  let ls := splitOnChar '\n' s.data
  let ls := match ls.reverse with
    | [] :: rest => rest.reverse
    | _ => ls
  ls.map fun l =>
    match dropSuf? ['\r'] l with
    | some l' => .mk l'
    | none => .mk l

/-- Split at the first `'='`, modelling `str::splitn(2, '=')`. -/
def splitFirstEq : List Char → Option (List Char × List Char)
  | [] => none
  | c :: cs =>
    if c == '=' then some ([], cs)
    else (splitFirstEq cs).map fun p => (c :: p.1, p.2)

/-- The mutable scan state of `parse_profile`, src/profile.rs lines 165–169. -/
structure ScanState where
  in_profile : Bool
  region : Option String
  start_url : Option String
  account_id : Option String
  role_name : Option String
deriving DecidableEq

/-- The initial scan state (all `None`, not in the profile). -/
def ScanState.initial : ScanState :=
  { in_profile := false, region := none, start_url := none,
    account_id := none, role_name := none }

/-- The key/value arm of the scan loop, src/profile.rs lines 182–195:
`line.splitn(2, '=')`, each part trimmed of spaces, empty parts filtered
out, then the first two remaining parts matched against the four
recognized keys. -/
def applyKV (line : String) (st : ScanState) : ScanState :=
  let raw : List (List Char) :=
    match splitFirstEq line.data with
    | none => [line.data]
    | some (a, b) => [a, b]
  let parts :=
    (raw.map fun l => trimSpaces (.mk l)).filter fun s => !s.data.isEmpty
  match parts.get? 0, parts.get? 1 with
  | some "sso_region", some v => { st with region := some v }
  | some "sso_start_url", some v => { st with start_url := some v }
  | some "sso_account_id", some v => { st with account_id := some v }
  | some "sso_role_name", some v => { st with role_name := some v }
  | _, _ => st

/-- The line scan loop of `parse_profile`, src/profile.rs lines 171–197:
skip blank and `#` lines; on a section header, stop if the target section
just ended, otherwise record whether the new section is the target; inside
the target section, process key/value lines. -/
def scanLines (profile : String) : List String → ScanState → ScanState
  | [], st => st
  | line :: rest, st =>
    let t := trimSpaces line
    if t.data.isEmpty || t.data.head? == some '#' then
      scanLines profile rest st
    else
      match parse_profile_name t with
      | some nextProf =>
        if st.in_profile then st
        else scanLines profile rest { st with in_profile := nextProf == profile }
      | none =>
        if st.in_profile then scanLines profile rest (applyKV t st)
        else scanLines profile rest st

/-- The list of missing required keys, src/profile.rs lines 225–231: each
absent option contributes its key name, in declaration order. -/
def missingKeys (r s a n : Option String) : List String :=
  (if r.isNone then ["sso_region"] else []) ++
    (if s.isNone then ["sso_start_url"] else []) ++
    (if a.isNone then ["sso_account_id"] else []) ++
    (if n.isNone then ["sso_role_name"] else [])

/-- The scan loop applied to a file's lines from the initial state. -/
def profileScan (content profile : String) : ScanState :=
  scanLines profile (linesOf content) ScanState.initial

/-- `parse_profile` from src/profile.rs lines 157–239, applied to the
already-read file content.  `parseRegion` is the oracle for
`region.parse::<Region>()` (rusoto's `FromStr`, an external collaborator).
The error type models `SsoProfileError`, which wraps a message string. -/
def parse_profile (parseRegion : String → Except String Region)
    (content path profile : String) : Except String SsoConfig :=
  let st := profileScan content profile
  if !st.in_profile then
    .error ("profile " ++ profile ++ " is not defined in in config file " ++
      path)
  else
    match st.region, st.start_url, st.account_id, st.role_name with
    | some r, some s, some a, some n =>
      match parseRegion r with
      | .error e =>
        .error ("error in profile " ++ profile ++ " in config file " ++
          path ++ ": " ++ e)
      | .ok reg =>
        .ok { region := reg, start_url := s, account_id := a, role_name := n }
    | r?, s?, a?, n? =>
      .error ("incomplete SSO configuration in profile " ++ profile ++
        "; missing: " ++ String.intercalate ", " (missingKeys r? s? a? n?))

/-- A line that the scan recognizes as the header of the target profile's
section: not blank, not a comment, and `parse_profile_name` yields exactly
the profile name. -/
def isTargetHeader (profile line : String) : Bool :=
  let t := trimSpaces line
  !(t.data.isEmpty || t.data.head? == some '#') &&
    parse_profile_name t == some profile

/-- Whether the config file content defines a section for the profile. -/
def sectionDefined (content profile : String) : Bool :=
  (linesOf content).any (isTargetHeader profile)

/-- A sample AWS shared config file: an incomplete `[default]` section and a
complete `[profile work]` section. -/
def sampleSharedConfig : String :=
  "[default]\nsso_region = eu-west-1\n\n# comment\n[profile work]\nsso_region = eu-west-1\nsso_start_url = https://myorg.awsapps.com/start\nsso_account_id = 012345678910\nsso_role_name = Admin\n"

/-! ## Fingerprint hashing (src/cache.rs: `Cache::new` and `Md5Hasher`) -/

/-- `2 ^ 32`. -/
def U32 : Nat := 4294967296

/-- `2 ^ 64`. -/
def U64 : Nat := 18446744073709551616

/-- 32-bit modular addition. -/
def add32 (a b : Nat) : Nat := (a + b) % U32

/-- 32-bit complement (for `a < 2 ^ 32`). -/
def not32 (a : Nat) : Nat := a ^^^ 4294967295

/-- 32-bit left rotation (for `x < 2 ^ 32`, `n ≤ 32`). -/
def rotl32 (x n : Nat) : Nat := ((x <<< n) % U32) ||| (x >>> (32 - n))

/-- The MD5 sine-derived constant table `K`. -/
def md5K : List Nat :=
  [0xd76aa478, 0xe8c7b756, 0x242070db, 0xc1bdceee, 0xf57c0faf, 0x4787c62a,
   0xa8304613, 0xfd469501, 0x698098d8, 0x8b44f7af, 0xffff5bb1, 0x895cd7be,
   0x6b901122, 0xfd987193, 0xa679438e, 0x49b40821, 0xf61e2562, 0xc040b340,
   0x265e5a51, 0xe9b6c7aa, 0xd62f105d, 0x02441453, 0xd8a1e681, 0xe7d3fbc8,
   0x21e1cde6, 0xc33707d6, 0xf4d50d87, 0x455a14ed, 0xa9e3e905, 0xfcefa3f8,
   0x676f02d9, 0x8d2a4c8a, 0xfffa3942, 0x8771f681, 0x6d9d6122, 0xfde5380c,
   0xa4beea44, 0x4bdecfa9, 0xf6bb4b60, 0xbebfbc70, 0x289b7ec6, 0xeaa127fa,
   0xd4ef3085, 0x04881d05, 0xd9d4d039, 0xe6db99e5, 0x1fa27cf8, 0xc4ac5665,
   0xf4292244, 0x432aff97, 0xab9423a7, 0xfc93a039, 0x655b59c3, 0x8f0ccc92,
   0xffeff47d, 0x85845dd1, 0x6fa87e4f, 0xfe2ce6e0, 0xa3014314, 0x4e0811a1,
   0xf7537e82, 0xbd3af235, 0x2ad7d2bb, 0xeb86d391]

/-- The MD5 per-round left-rotation amounts `S`. -/
def md5S : List Nat :=
  [7, 12, 17, 22, 7, 12, 17, 22, 7, 12, 17, 22, 7, 12, 17, 22,
   5, 9, 14, 20, 5, 9, 14, 20, 5, 9, 14, 20, 5, 9, 14, 20,
   4, 11, 16, 23, 4, 11, 16, 23, 4, 11, 16, 23, 4, 11, 16, 23,
   6, 10, 15, 21, 6, 10, 15, 21, 6, 10, 15, 21, 6, 10, 15, 21]

/-- The 8 little-endian bytes of a `u64` value. -/
def u64LEBytes (n : Nat) : List Nat :=
  (List.range 8).map fun i => (n >>> (8 * i)) % 256

/-- The 4 little-endian bytes of a `u32` value. -/
def u32LEBytes (n : Nat) : List Nat :=
  (List.range 4).map fun i => (n >>> (8 * i)) % 256

/-- MD5 padding: append `0x80`, then zero bytes until the length is 56 mod
64, then the original length in bits as 8 little-endian bytes. -/
def padMsg (msg : List Nat) : List Nat :=
  msg ++ [128] ++ List.replicate ((120 - (msg.length + 1) % 64) % 64) 0 ++
    u64LEBytes ((msg.length * 8) % U64)

/-- The `g`-th little-endian 32-bit word of a 64-byte block. -/
def leWord (block : List Nat) (g : Nat) : Nat :=
  block.getD (4 * g) 0 + 256 * block.getD (4 * g + 1) 0 +
    65536 * block.getD (4 * g + 2) 0 + 16777216 * block.getD (4 * g + 3) 0

/-- Split a byte list into 64-byte chunks (structural recursion on a fuel
bound; `fuel ≥ l.length` always suffices since each step drops 64 > 0
elements of a non-empty list). -/
def chunks64Core : Nat → List Nat → List (List Nat)
  | _, [] => []
  | 0, _ :: _ => []
  | fuel + 1, b :: rest =>
    ((b :: rest).take 64) :: chunks64Core fuel ((b :: rest).drop 64)

/-- Split a byte list into 64-byte chunks. -/
def chunks64 (l : List Nat) : List (List Nat) := chunks64Core l.length l

/-- One MD5 round: state is `(a, b, c, d)`, `i` is the round index. -/
def md5Round (block : List Nat) (st : Nat × Nat × Nat × Nat) (i : Nat) :
    Nat × Nat × Nat × Nat :=
  let a := st.1
  let b := st.2.1
  let c := st.2.2.1
  let d := st.2.2.2
  let fg : Nat × Nat :=
    if i < 16 then ((b &&& c) ||| (not32 b &&& d), i)
    else if i < 32 then ((d &&& b) ||| (not32 d &&& c), (5 * i + 1) % 16)
    else if i < 48 then (b ^^^ (c ^^^ d), (3 * i + 5) % 16)
    else (c ^^^ (b ||| not32 d), (7 * i) % 16)
  let v := add32 (add32 (add32 fg.1 a) (md5K.getD i 0)) (leWord block fg.2)
  (d, add32 b (rotl32 v (md5S.getD i 0)), b, c)

/-- Process one 64-byte block: 64 rounds, then add into the running state. -/
def md5Block (st : Nat × Nat × Nat × Nat) (block : List Nat) :
    Nat × Nat × Nat × Nat :=
  let r := (List.range 64).foldl (md5Round block) st
  (add32 st.1 r.1, add32 st.2.1 r.2.1, add32 st.2.2.1 r.2.2.1,
    add32 st.2.2.2 r.2.2.2)

/-- The 16-byte MD5 digest of a byte list, modelling the `md5` crate used by
`Md5Hasher` (src/cache.rs lines 106–141). -/
def md5Bytes (msg : List Nat) : List Nat :=
  let st := (chunks64 (padMsg msg)).foldl md5Block
    (1732584193, 4023233417, 2562383102, 271733878)
  u32LEBytes st.1 ++ u32LEBytes st.2.1 ++ u32LEBytes st.2.2.1 ++
    u32LEBytes st.2.2.2

/-- Big-endian byte fold into a `u64` value
(`u64::from_be_bytes`). -/
def u64BE (bytes : List Nat) : Nat :=
  bytes.foldl (fun acc b => acc * 256 + b) 0

/-- `Md5Hasher::finish` from src/cache.rs lines 127–140: the big-endian
`u64` of the digest's first 8 bytes XORed with that of its last 8 bytes,
applied to the bytes written to the hasher. -/
def Md5Hasher.finish (written : List Nat) : Nat :=
  u64BE ((md5Bytes written).take 8) ^^^ u64BE ((md5Bytes written).drop 8)

/-- The lowercase hex digit character for `n < 16`. -/
def hexDigitChar (n : Nat) : Char :=
  if n < 10 then Char.ofNat (48 + n) else Char.ofNat (87 + n)

/-- The lowercase hex digits of a positive number, most significant first
(structural recursion on a fuel bound; `fuel ≥ n` always suffices since
`(n + 1) / 16 ≤ n`). -/
def hexDigitsCore : Nat → Nat → List Char
  | _, 0 => []
  | 0, _ + 1 => []
  | fuel + 1, n + 1 =>
    hexDigitsCore fuel ((n + 1) / 16) ++ [hexDigitChar ((n + 1) % 16)]

/-- The lowercase hex digits of `n`, most significant first (empty for 0). -/
def hexDigits (n : Nat) : List Char := hexDigitsCore n n

/-- Rust `format!("{:x}", v)`: minimal-width lowercase hexadecimal, `"0"`
for zero — no zero-padding (src/cache.rs line 27). -/
def formatHexLower (n : Nat) : String :=
  if n = 0 then "0" else .mk (hexDigits n)

/-- `Cache::new` from src/cache.rs lines 21–29: hash the suffix value with
`Md5Hasher` and render the resulting 64-bit value with `format!("{:x}", _)`.
`suffixBytes` is the byte stream written by the suffix value's `Hash`
impl. -/
def Cache.new (dir : Option String) (suffixBytes : List Nat) : Cache :=
  { dir := dir, suffix := formatHexLower (Md5Hasher.finish suffixBytes) }

/-- UTF-8 encoding of one character. -/
def utf8Enc (c : Char) : List Nat :=
  let n := c.toNat
  if n < 128 then [n]
  else if n < 2048 then [192 + n / 64, 128 + n % 64]
  else if n < 65536 then
    [224 + n / 4096, 128 + (n / 64) % 64, 128 + n % 64]
  else
    [240 + n / 262144, 128 + (n / 4096) % 64, 128 + (n / 64) % 64,
      128 + n % 64]

/-- UTF-8 bytes of a string. -/
def strBytes (s : String) : List Nat := s.data.flatMap utf8Enc

/-- Modelled from the Rust standard library and rusoto (external to src/):
the byte stream that `#[derive(Hash)]` on `SsoConfig` (src/builder.rs line
176) writes to the hasher when `Cache::new(cache_dir, &config)` hashes the
config (src/flow.rs line 87): the region enum's discriminant as 8
little-endian bytes (derived `Hash` on a fieldless `rusoto_core::Region`
variant hashes the `isize` discriminant, written native-endian, i.e.
little-endian on x86-64), then each `String` field's UTF-8 bytes followed by
the `0xff` terminator byte appended by `str`'s `Hash` impl, in field
declaration order. -/
def encodeSsoConfig (c : SsoConfig) : List Nat :=
  u64LEBytes c.region.disc ++ strBytes c.start_url ++ [255] ++
    strBytes c.account_id ++ [255] ++ strBytes c.role_name ++ [255]

/-- The cache-file fingerprint of a config: the suffix that `Cache::new`
computes from the config's hash. -/
def fingerprint (c : SsoConfig) : String :=
  (Cache.new none (encodeSsoConfig c)).suffix

/-- Lowercase hexadecimal digit characters. -/
def isLowerHexChar (c : Char) : Bool :=
  (48 ≤ c.toNat && c.toNat ≤ 57) || (97 ≤ c.toNat && c.toNat ≤ 102)

/-- A sample config whose fingerprint is 16 hex digits wide. -/
def cfgWide : SsoConfig :=
  { region := ⟨9⟩, start_url := "https://myorg.awsapps.com/start",
    account_id := "012345678910", role_name := "PowerUser" }

/-- A sample config (same region and start URL, different account) whose
64-bit hash has a leading zero nibble, so its fingerprint is only 15 hex
digits wide. -/
def cfgNarrow : SsoConfig :=
  { region := ⟨0⟩, start_url := "https://myorg.awsapps.com/start",
    account_id := "100000000004", role_name := "PowerUser" }

/-! ## Session credentials (src/credentials.rs) -/

/-- `SessionCredentials` from src/credentials.rs lines 12–24. -/
structure SessionCredentials where
  access_key_id : String
  secret_access_key : String
  session_token : String
  expires_at : Int
deriving DecidableEq

/-- Rust `Debug` quoting of a string field.  (Escaping of special characters
inside the string is not modelled; for the claims only which fields the
output depends on matters.) -/
def debugQuote (s : String) : String := "\"" ++ s ++ "\""

/-- The `Debug` rendering of a `DateTime<Utc>`, as a function of the
modelled timestamp. -/
def fmtUtc (t : Int) : String := toString t

/-- The custom `fmt::Debug` impl for `SessionCredentials`,
src/credentials.rs lines 26–33: a `debug_struct` carrying only the
`access_key_id` and `expires_at` fields, finished non-exhaustively
(rendered as a trailing `..`). -/
def SessionCredentials.debugFmt (c : SessionCredentials) : String :=
  "SessionCredentials \x7b access_key_id: " ++ debugQuote c.access_key_id ++
    ", expires_at: " ++ fmtUtc c.expires_at ++ ", .. \x7d"

/-! ## Builder type state (src/builder.rs) -/

/-- The verification-prompt type parameter `V` of `SsoFlowBuilder`,
abstracted to whether it is the initial `Infallible` or a supplied prompt
type. -/
inductive VType where
  | infallible
  | prompt
deriving DecidableEq

/-- The `V: VerificationPrompt` trait bound: `Infallible` does not implement
`VerificationPrompt` (see the comment at src/builder.rs lines 137–140), so
only a supplied prompt type satisfies it. -/
def VerificationPromptBound (v : VType) : Prop := v = .prompt

/-- `SsoFlowBuilder` from src/builder.rs lines 49–53.  The config source and
the prompt value are kept opaque (`Nat` tags); `vtype` tracks the type
parameter `V`. -/
structure SsoFlowBuilder where
  cache_dir : Option String
  config_source : Nat
  vtype : VType
  verification_prompt : Option Nat
deriving DecidableEq

/-- Builders reachable through the public API of src/builder.rs:
`new`/`default` (lines 55–71, with `V = Infallible` and no prompt),
`cache_dir` (lines 83–88), `config` (lines 95–104: replaces the source and
keeps the prompt field and `V`), and `verification_prompt` (lines 112–121:
changes `V` to the supplied prompt type, which satisfies the bound, and
stores `Some`). -/
inductive Reachable : SsoFlowBuilder → Prop
  | new : Reachable
      { cache_dir := none, config_source := 0, vtype := .infallible,
        verification_prompt := none }
  | cache_dir (b : SsoFlowBuilder) (p : String) : Reachable b →
      Reachable { b with cache_dir := some p }
  | config (b : SsoFlowBuilder) (s : Nat) : Reachable b →
      Reachable { b with config_source := s }
  | verification_prompt (b : SsoFlowBuilder) (v : Nat) : Reachable b →
      Reachable
        { cache_dir := b.cache_dir, config_source := b.config_source,
          vtype := .prompt, verification_prompt := some v }

/-- `SsoFlowBuilder::build`, src/builder.rs lines 134–150, reduced to its
`verification_prompt.expect("verification_prompt must be set")` step:
`none` models the panic.  (The config-source load, whose failure is an
ordinary error return, is orthogonal to the panic and not modelled.) -/
def build (b : SsoFlowBuilder) : Option (Option String × Nat) :=
  b.verification_prompt.map fun v => (b.cache_dir, v)

/-! ## Theorems -/

/-- Helper: the polling loop on `n` pending replies followed by a successful
conversion returns the token after `n + 1` attempts, sleeping for the poll
interval after each pending reply. -/
theorem pollLoop_pending_then_success {E : Type} (interval : Nat) (tok : Token)
    (n : Nat) (rest : List PollReply) :
    pollLoop (E := E) interval
        (List.replicate n .authorizationPending ++ .success (.ok tok) :: rest) =
      (.done (.ok tok),
        (List.replicate n [PollEv.attempt, PollEv.sleep interval]).flatten ++
          [PollEv.attempt]) := by
  induction n with
  | zero => simp [pollLoop]
  | succ n ih => simp [List.replicate_succ, pollLoop, ih]

/-- Claim C3: if the verification prompt fails, `create_token` performs no
poll attempt at all (empty event trace) and returns the prompt's own error
wrapped in `VerificationPrompt` — and the flow-level mapping of the token
step turns this into `SsoFlowError::VerificationPrompt` (not `Api`). -/
theorem prompt_failure_short_circuits_polling {E : Type} (ch : Challenge)
    (e : E) (replies : List PollReply) (c : Cache) (pfx : String)
    (cenv : CacheEnv Token (CreateTokenError E))
    (hmiss : c.dir = none ∨ cenv.readFile = .notFound)
    (hinit : cenv.init = .error (.verificationPrompt e)) :
    create_token
        { startAuth := .ok ch, promptResult := .error e, replies := replies } =
        (.done (.error (.verificationPrompt e)), []) ∧
      (c.get_or_init pfx cenv).1.mapError tokenErrorToFlow =
        .error (.verificationPrompt e) := by
  refine ⟨rfl, ?_⟩
  obtain ⟨dir, sfx⟩ := c
  rcases hmiss with hd | hr
  · simp only at hd
    subst hd
    simp [Cache.get_or_init, Cache.filePath, initPhase, hinit,
      Except.mapError, tokenErrorToFlow]
  · cases dir with
    | none =>
      simp [Cache.get_or_init, Cache.filePath, initPhase, hinit,
        Except.mapError, tokenErrorToFlow]
    | some d =>
      simp [Cache.get_or_init, Cache.filePath, initPhase, hr, hinit,
        Except.mapError, tokenErrorToFlow]

/-- Claim C3 witness: a concrete failing prompt with a non-empty reply
script; no poll attempt happens and the flow error is `verificationPrompt`. -/
theorem prompt_failure_short_circuits_polling_witness :
    create_token
        { startAuth := .ok ⟨"dev", 5, "ABCD", "https://verify.example"⟩,
          promptResult := .error "prompt failed",
          replies := [.success (.ok ⟨"tok", 100⟩)] } =
        (.done (.error (.verificationPrompt "prompt failed")), []) ∧
      (Cache.get_or_init ⟨some "d", "f"⟩ "token"
          { readFile := .notFound
            parse := fun _ => .error "unused"
            expires_at := fun t : Token => t.expires_at
            now := 0
            init := .error (.verificationPrompt "prompt failed")
            write := none }).1.mapError tokenErrorToFlow =
        .error (.verificationPrompt "prompt failed") :=
  prompt_failure_short_circuits_polling ⟨"dev", 5, "ABCD", "https://verify.example"⟩
    "prompt failed" [.success (.ok ⟨"tok", 100⟩)] ⟨some "d", "f"⟩ "token" _
    (Or.inr rfl) rfl

/-- Claim C4: with a successful prompt, (a) a reply script of `n`
"authorization pending" replies followed by a success yields the token after
exactly `n + 1` attempts, with a sleep for the challenge's poll interval
after each pending reply; (b) a script whose next reply is "expired token"
yields `VerificationPromptTimeout` immediately after that single attempt,
with no sleep and no further attempts. -/
theorem polling_backoff_loop {E : Type} (ch : Challenge) (tok : Token)
    (n : Nat) (rest rest' : List PollReply) :
    create_token (E := E)
        { startAuth := .ok ch, promptResult := .ok (),
          replies := List.replicate n .authorizationPending ++
            .success (.ok tok) :: rest } =
      (.done (.ok tok),
        (List.replicate n [PollEv.attempt, PollEv.sleep ch.interval]).flatten ++
          [PollEv.attempt]) ∧
    create_token (E := E)
        { startAuth := .ok ch, promptResult := .ok (),
          replies := .expiredToken :: rest' } =
      (.done (.error .verificationPromptTimeout), [.attempt]) :=
  ⟨pollLoop_pending_then_success ch.interval tok n rest, rfl⟩

/-- Claim C1 (code evaluation at the failing input): with a cached artifact
whose `expires_at` is `now + CACHE_BUFFER - 1` (strictly less than
`now + CACHE_BUFFER`, so per the claim the compute closure must be invoked),
`Cache::get_or_init` nonetheless returns the cached value and never invokes
the compute closure: the code honors the cache whenever
`expires_at + CACHE_BUFFER > now`, i.e. until 60 seconds *after* expiry,
rather than only while expiry is more than 60 seconds in the future. -/
theorem cache_honored_at_now_plus_buffer_minus_one :
    (Cache.get_or_init ⟨some "cachedir", "fp"⟩ "token" bufferBoundaryEnv).1 =
        .ok 1059 ∧
      CacheEff.initCall ∉
        (Cache.get_or_init ⟨some "cachedir", "fp"⟩ "token" bufferBoundaryEnv).2 ∧
      bufferBoundaryEnv.expires_at 1059 <
        bufferBoundaryEnv.now + CACHE_BUFFER :=
  ⟨rfl, by decide, by decide⟩

/-- Claim C2: if the cache file exists (read succeeds) but its content fails
to deserialize, `get_or_init` returns the `corrupt` cache error and the
compute closure is never invoked. -/
theorem corrupt_cache_is_fatal {T E : Type} (c : Cache)
    (d pfx content perr : String) (env : CacheEnv T E)
    (hd : c.dir = some d) (hr : env.readFile = .ok content)
    (hp : env.parse content = .error perr) :
    (c.get_or_init pfx env).1 =
        .error (.cache (cacheMsg "corrupt"
          (d ++ "/" ++ pfx ++ "-" ++ c.suffix ++ ".json") perr)) ∧
      CacheEff.initCall ∉ (c.get_or_init pfx env).2 := by
  obtain ⟨dir, sfx⟩ := c
  simp only [Cache.mk.injEq] at *
  subst hd
  simp [Cache.get_or_init, Cache.filePath, hr, hp]

/-- Claim C2 witness: a concrete corrupt-cache call. -/
theorem corrupt_cache_is_fatal_witness :
    (Cache.get_or_init ⟨some "d", "f"⟩ "client"
        { readFile := .ok "garbage"
          parse := fun _ => .error "expected value"
          expires_at := fun v : Int => v
          now := 0
          init := (.ok 7 : Except String Int)
          write := none }).1 =
        .error (.cache (cacheMsg "corrupt" ("d" ++ "/" ++ "client" ++ "-" ++
          "f" ++ ".json") "expected value")) ∧
      CacheEff.initCall ∉
        (Cache.get_or_init ⟨some "d", "f"⟩ "client"
          { readFile := .ok "garbage"
            parse := fun _ => .error "expected value"
            expires_at := fun v : Int => v
            now := 0
            init := (.ok 7 : Except String Int)
            write := none }).2 :=
  corrupt_cache_is_fatal ⟨some "d", "f"⟩ "d" "client" "garbage"
    "expected value" _ rfl rfl rfl

/-- Claim C5: with caching enabled, if the compute closure was invoked and
succeeded but the serialize-and-write step fails, the whole call fails with
the `failed to write` cache error — the computed value is discarded. -/
theorem write_failure_discards_value {T E : Type} (c : Cache)
    (d pfx werr : String) (v : T) (env : CacheEnv T E)
    (hd : c.dir = some d) (hi : env.init = .ok v) (hw : env.write = some werr)
    (hcalled : CacheEff.initCall ∈ (c.get_or_init pfx env).2) :
    (c.get_or_init pfx env).1 =
      .error (.cache (cacheMsg "failed to write"
        (d ++ "/" ++ pfx ++ "-" ++ c.suffix ++ ".json") werr)) := by
  obtain ⟨dir, sfx⟩ := c
  simp only [Cache.mk.injEq] at *
  subst hd
  cases henv : env.readFile with
  | ok content =>
    cases hparse : env.parse content with
    | error perr =>
      simp [Cache.get_or_init, Cache.filePath, henv, hparse] at hcalled
    | ok value =>
      by_cases hexp : env.expires_at value + CACHE_BUFFER > env.now
      · simp [Cache.get_or_init, Cache.filePath, henv, hparse, hexp] at hcalled
      · simp [Cache.get_or_init, Cache.filePath, initPhase, henv, hparse,
          hexp, hi, hw]
  | notFound =>
    simp [Cache.get_or_init, Cache.filePath, initPhase, henv, hi, hw]
  | otherError rerr =>
    simp [Cache.get_or_init, Cache.filePath, henv] at hcalled

/-- Claim C5 witness: a concrete call in which compute succeeds but the write
fails, and the whole call errors. -/
theorem write_failure_discards_value_witness :
    (Cache.get_or_init ⟨some "d", "f"⟩ "token"
        { readFile := .notFound
          parse := fun _ => .error "unused"
          expires_at := fun v : Int => v
          now := 0
          init := (.ok 7 : Except String Int)
          write := some "permission denied" }).1 =
      .error (.cache (cacheMsg "failed to write"
        ("d" ++ "/" ++ "token" ++ "-" ++ "f" ++ ".json") "permission denied")) :=
  write_failure_discards_value ⟨some "d", "f"⟩ "d" "token"
    "permission denied" 7 _ rfl rfl rfl (by decide)

/-- Claim C10: (a) on a cache hit — the file reads and parses successfully
and the value is within the buffer window — `get_or_init` returns the cached
value having performed only the read: no compute call, no directory creation
or file write; (b) in every call, a write/directory-creation effect occurs
only when the compute closure was invoked and succeeded. -/
theorem cache_hit_leaves_fs_unchanged {T E : Type} (c : Cache) (pfx : String)
    (env : CacheEnv T E) :
    (∀ d content v, c.dir = some d → env.readFile = .ok content →
        env.parse content = .ok v →
        env.expires_at v + CACHE_BUFFER > env.now →
        c.get_or_init pfx env = (.ok v, [.readFile])) ∧
      (CacheEff.writeFile ∈ (c.get_or_init pfx env).2 →
        CacheEff.initCall ∈ (c.get_or_init pfx env).2 ∧
          ∃ v, env.init = .ok v) := by
  constructor
  · intro d content v hd hr hp hexp
    obtain ⟨dir, sfx⟩ := c
    simp only [Cache.mk.injEq] at *
    subst hd
    simp [Cache.get_or_init, Cache.filePath, hr, hp, hexp]
  · intro hw
    obtain ⟨dir, sfx⟩ := c
    cases hdir : dir with
    | none =>
      cases hi : env.init with
      | error e =>
        simp_all [Cache.get_or_init, Cache.filePath, initPhase, hi]
      | ok v =>
        subst hdir
        simp_all [Cache.get_or_init, Cache.filePath, initPhase, hi]
    | some d =>
      subst hdir
      cases henv : env.readFile with
      | ok content =>
        cases hparse : env.parse content with
        | error perr =>
          simp_all [Cache.get_or_init, Cache.filePath, henv, hparse]
        | ok value =>
          by_cases hexp : env.expires_at value + CACHE_BUFFER > env.now
          · simp_all [Cache.get_or_init, Cache.filePath, henv, hparse, hexp]
          · cases hi : env.init with
            | error e =>
              simp_all [Cache.get_or_init, Cache.filePath, initPhase, henv,
                hparse, hexp, hi]
            | ok v =>
              refine ⟨?_, v, rfl⟩
              cases hwr : env.write <;>
                simp_all [Cache.get_or_init, Cache.filePath, initPhase, henv,
                  hparse, if_neg hexp, hi, hwr]
      | notFound =>
        cases hi : env.init with
        | error e =>
          simp_all [Cache.get_or_init, Cache.filePath, initPhase, henv, hi]
        | ok v =>
          refine ⟨?_, v, rfl⟩
          cases hwr : env.write <;>
            simp_all [Cache.get_or_init, Cache.filePath, initPhase, henv, hi,
              hwr]
      | otherError rerr =>
        simp_all [Cache.get_or_init, Cache.filePath, henv]

/-- Claim C10 witness: a concrete cache hit performs only the read effect. -/
theorem cache_hit_leaves_fs_unchanged_witness :
    Cache.get_or_init ⟨some "d", "f"⟩ "credentials"
        { readFile := .ok "cached"
          parse := fun _ => (.ok 500 : Except String Int)
          expires_at := fun v : Int => v
          now := 0
          init := (.error "unused" : Except String Int)
          write := none } =
      (.ok 500, [.readFile]) :=
  (cache_hit_leaves_fs_unchanged ⟨some "d", "f"⟩ "credentials" _).1
    "d" "cached" 500 rfl rfl rfl (by decide)

/-- Helper: the key/value arm of the scan never changes `in_profile`. -/
theorem applyKV_in_profile (line : String) (st : ScanState) :
    (applyKV line st).in_profile = st.in_profile := by
  unfold applyKV
  split <;> (dsimp only; split <;> rfl)

/-- Helper: once the scan is (or was) inside the target section, it stays
`in_profile` (the loop breaks at the next header, keeping the state). -/
theorem scanLines_keeps_in_profile (profile : String) (lines : List String)
    (st : ScanState) (h : st.in_profile = true) :
    (scanLines profile lines st).in_profile = true := by
  induction lines generalizing st with
  | nil => simpa [scanLines] using h
  | cons line rest ih =>
    simp only [scanLines]
    split
    · exact ih st h
    · cases hppn : parse_profile_name (trimSpaces line) with
      | some nextProf =>
        dsimp only
        exact h
      | none =>
        dsimp only
        exact ih _ (by rw [applyKV_in_profile]; exact h)


/-- Helper: starting outside the target section, the final `in_profile` flag
is exactly "some non-skipped line is a header naming the target profile". -/
theorem scanLines_in_profile_any (profile : String) (lines : List String)
    (st : ScanState) (h : st.in_profile = false) :
    (scanLines profile lines st).in_profile =
      lines.any (isTargetHeader profile) := by
  induction lines generalizing st with
  | nil => simpa [scanLines] using h
  | cons line rest ih =>
    simp only [scanLines, List.any_cons]
    by_cases hskip : (trimSpaces line).data.isEmpty
        || (trimSpaces line).data.head? == some '#'
    · rw [if_pos hskip, ih st h]
      have ht : isTargetHeader profile line = false := by
        simp only [isTargetHeader, hskip, Bool.not_true, Bool.false_and]
      rw [ht]
      simp
    · rw [if_neg hskip]
      cases hppn : parse_profile_name (trimSpaces line) with
      | some nextProf =>
        have ht : isTargetHeader profile line = (nextProf == profile) := by
          simp only [isTargetHeader, hskip, Bool.not_false, Bool.true_and,
            hppn]
          cases hbe : nextProf == profile with
          | true => simp_all
          | false =>
            simp only [beq_eq_false_iff_ne, ne_eq] at hbe
            simp_all
        dsimp only
        rw [if_neg (by simp [h]), ht]
        cases hbe : nextProf == profile with
        | true =>
          rw [scanLines_keeps_in_profile profile rest _ (by simp [hbe])]
          simp
        | false =>
          rw [ih _ (by simp [hbe])]
          simp
      | none =>
        have ht : isTargetHeader profile line = false := by
          simp [isTargetHeader, hskip, hppn]
        dsimp only
        rw [if_neg (by simp [h]), ih st h, ht]
        simp

/-- Claim C7: for every profile load, (a) if the file defines no section for
the profile, the load fails with the "profile … is not defined" error;
(b) if the section is defined but some of the four required keys were not
collected, the load fails with the "incomplete SSO configuration" error
naming the missing keys; (c) the missing-keys list names exactly the keys
not collected; (d) a successful load implies no key was missing (no partial
configuration is ever returned). -/
theorem profile_load_errors (parseRegion : String → Except String Region)
    (content path profile : String) :
    (sectionDefined content profile = false →
      parse_profile parseRegion content path profile =
        .error ("profile " ++ profile ++ " is not defined in in config file "
          ++ path)) ∧
    (sectionDefined content profile = true →
      missingKeys (profileScan content profile).region
          (profileScan content profile).start_url
          (profileScan content profile).account_id
          (profileScan content profile).role_name ≠ [] →
      parse_profile parseRegion content path profile =
        .error ("incomplete SSO configuration in profile " ++ profile ++
          "; missing: " ++ String.intercalate ", "
            (missingKeys (profileScan content profile).region
              (profileScan content profile).start_url
              (profileScan content profile).account_id
              (profileScan content profile).role_name))) ∧
    (∀ k, k ∈ missingKeys (profileScan content profile).region
          (profileScan content profile).start_url
          (profileScan content profile).account_id
          (profileScan content profile).role_name ↔
        ((k = "sso_region" ∧ (profileScan content profile).region = none) ∨
          (k = "sso_start_url" ∧ (profileScan content profile).start_url = none) ∨
          (k = "sso_account_id" ∧ (profileScan content profile).account_id = none) ∨
          (k = "sso_role_name" ∧ (profileScan content profile).role_name = none))) ∧
    (∀ cfg, parse_profile parseRegion content path profile = .ok cfg →
      missingKeys (profileScan content profile).region
        (profileScan content profile).start_url
        (profileScan content profile).account_id
        (profileScan content profile).role_name = []) := by
  have hinit : (ScanState.initial).in_profile = false := rfl
  have hscan : (profileScan content profile).in_profile =
      sectionDefined content profile := by
    unfold profileScan sectionDefined
    exact scanLines_in_profile_any profile (linesOf content) _ hinit
  refine ⟨?_, ?_, ?_, ?_⟩
  · intro hsec
    simp only [parse_profile]
    rw [hscan, hsec]
    rfl
  · intro hsec hmiss
    simp only [parse_profile]
    rw [hscan, hsec]
    rw [if_neg (by simp)]
    cases hr : (profileScan content profile).region with
    | some r =>
      cases hs : (profileScan content profile).start_url with
      | some s =>
        cases ha : (profileScan content profile).account_id with
        | some a =>
          cases hn : (profileScan content profile).role_name with
          | some n =>
            exfalso
            apply hmiss
            simp [missingKeys, hr, hs, ha, hn]
          | none => simp [missingKeys, hr, hs, ha, hn]
        | none =>
          cases hn : (profileScan content profile).role_name <;>
            simp [missingKeys, hr, hs, ha, hn]
      | none =>
        cases ha : (profileScan content profile).account_id <;>
          cases hn : (profileScan content profile).role_name <;>
            simp [missingKeys, hr, hs, ha, hn]
    | none =>
      cases hs : (profileScan content profile).start_url <;>
        cases ha : (profileScan content profile).account_id <;>
          cases hn : (profileScan content profile).role_name <;>
            simp [missingKeys, hr, hs, ha, hn]
  · intro k
    cases hr : (profileScan content profile).region <;>
      cases hs : (profileScan content profile).start_url <;>
        cases ha : (profileScan content profile).account_id <;>
          cases hn : (profileScan content profile).role_name <;>
            simp [missingKeys]
  · intro cfg hok
    simp only [parse_profile] at hok
    by_cases hsec : (profileScan content profile).in_profile = true
    · rw [if_neg (by simp [hsec])] at hok
      cases hr : (profileScan content profile).region <;>
        cases hs : (profileScan content profile).start_url <;>
          cases ha : (profileScan content profile).account_id <;>
            cases hn : (profileScan content profile).role_name <;>
              simp_all [missingKeys]
    · simp only [Bool.not_eq_true] at hsec
      rw [if_pos (by simp [hsec])] at hok
      exact absurd hok (by simp)

set_option maxRecDepth 100000 in
/-- Claim C7 witness: on the sample config, loading a nonexistent profile
fails with the "not defined" message, and loading the incomplete `default`
profile fails naming exactly the three missing keys. -/
theorem profile_load_errors_witness :
    parse_profile (fun _ => .ok ⟨9⟩) sampleSharedConfig "cfg" "nope" =
      .error "profile nope is not defined in in config file cfg" ∧
    parse_profile (fun _ => .ok ⟨9⟩) sampleSharedConfig "cfg" "default" =
      .error "incomplete SSO configuration in profile default; missing: sso_start_url, sso_account_id, sso_role_name" := by
  constructor
  · exact (profile_load_errors (fun _ => .ok ⟨9⟩) sampleSharedConfig "cfg"
      "nope").1 (by decide)
  · rw [(profile_load_errors (fun _ => .ok ⟨9⟩) sampleSharedConfig "cfg"
      "default").2.1 (by decide) (by decide)]
    rfl

/-- Claim C8: two credentials that agree on `access_key_id` and `expires_at`
but differ in secret material have identical `Debug` output — the rendering
is a function of the access key id and expiry alone, so secrets never
appear in diagnostic output. -/
theorem debug_output_hides_secrets (c₁ c₂ : SessionCredentials)
    (hid : c₁.access_key_id = c₂.access_key_id)
    (hexp : c₁.expires_at = c₂.expires_at)
    (_hdiff : c₁.secret_access_key ≠ c₂.secret_access_key ∨
      c₁.session_token ≠ c₂.session_token) :
    c₁.debugFmt = c₂.debugFmt := by
  simp [SessionCredentials.debugFmt, hid, hexp]

/-- Claim C8 witness: concrete credentials differing in both secret fields
render identically. -/
theorem debug_output_hides_secrets_witness :
    SessionCredentials.debugFmt ⟨"AKIAXXXX", "secretA", "tokenA", 100⟩ =
      SessionCredentials.debugFmt ⟨"AKIAXXXX", "secretB", "tokenB", 100⟩ :=
  debug_output_hides_secrets ⟨"AKIAXXXX", "secretA", "tokenA", 100⟩
    ⟨"AKIAXXXX", "secretB", "tokenB", 100⟩ rfl rfl (Or.inl (by decide))

/-- Claim C9: every builder reachable through the public API whose prompt
type parameter satisfies the `VerificationPrompt` bound has its
`verification_prompt` field set, so `build` never reaches its
"verification_prompt must be set" panic. -/
theorem builder_never_panics (b : SsoFlowBuilder) (hr : Reachable b)
    (hv : VerificationPromptBound b.vtype) :
    b.verification_prompt.isSome = true ∧ (build b).isSome = true := by
  have hmain : ∀ a : SsoFlowBuilder, Reachable a → a.vtype = VType.prompt →
      a.verification_prompt.isSome = true := by
    intro a ha
    induction ha with
    | new => intro hp; exact absurd hp (by simp)
    | cache_dir a p ha ih => intro hp; exact ih hp
    | config a s ha ih => intro hp; exact ih hp
    | verification_prompt a v ha ih => intro hp; rfl
  have h1 := hmain b hr hv
  refine ⟨h1, ?_⟩
  unfold build
  cases hvp : b.verification_prompt with
  | none => rw [hvp] at h1; exact absurd h1 (by simp)
  | some v => rfl

/-- Claim C9 witness: the concrete builder built by
`new → verification_prompt → cache_dir` has its prompt set and builds. -/
theorem builder_never_panics_witness :
    (⟨some "x", 0, .prompt, some 5⟩ : SsoFlowBuilder).verification_prompt.isSome
        = true ∧
      (build ⟨some "x", 0, .prompt, some 5⟩).isSome = true :=
  builder_never_panics ⟨some "x", 0, .prompt, some 5⟩
    (Reachable.cache_dir ⟨none, 0, .prompt, some 5⟩ "x"
      (Reachable.verification_prompt ⟨none, 0, .infallible, none⟩ 5
        Reachable.new))
    rfl

/-- Helper: a byte-wise big-endian fold is bounded by
`256 ^ length * (acc + 1)`. -/
theorem u64BE_fold_lt (l : List Nat) (acc : Nat) (hb : ∀ b ∈ l, b < 256) :
    l.foldl (fun a b => a * 256 + b) acc < 256 ^ l.length * (acc + 1) := by
  induction l generalizing acc with
  | nil => simp
  | cons b rest ih =>
    simp only [List.foldl_cons, List.length_cons]
    have hb256 : b < 256 := hb b (List.mem_cons_self b rest)
    have h1 := ih (acc * 256 + b) fun x hx => hb x (List.mem_cons_of_mem b hx)
    have h3 : acc * 256 + b + 1 ≤ 256 * (acc + 1) := by omega
    calc rest.foldl (fun a b => a * 256 + b) (acc * 256 + b)
        < 256 ^ rest.length * (acc * 256 + b + 1) := h1
      _ ≤ 256 ^ rest.length * (256 * (acc + 1)) := Nat.mul_le_mul_left _ h3
      _ = 256 ^ (rest.length + 1) * (acc + 1) := by ring

/-- Helper: `u64BE` of at most 8 bytes stays below `2 ^ 64`. -/
theorem u64BE_lt (l : List Nat) (hlen : l.length ≤ 8)
    (hb : ∀ b ∈ l, b < 256) : u64BE l < U64 := by
  have h := u64BE_fold_lt l 0 hb
  have h2 : 256 ^ l.length ≤ 256 ^ 8 :=
    Nat.pow_le_pow_right (by norm_num) hlen
  have h3 : U64 = 256 ^ 8 := by norm_num [U64]
  unfold u64BE
  omega

/-- Helper: `u32LEBytes` produces bytes. -/
theorem u32LEBytes_bytes_lt (n : Nat) : ∀ b ∈ u32LEBytes n, b < 256 := by
  intro b hb
  simp only [u32LEBytes, List.mem_map] at hb
  obtain ⟨i, _, rfl⟩ := hb
  exact Nat.mod_lt _ (by norm_num)

/-- Helper: MD5 digests consist of bytes. -/
theorem md5Bytes_bytes_lt (msg : List Nat) : ∀ b ∈ md5Bytes msg, b < 256 := by
  intro b hb
  simp only [md5Bytes, List.mem_append] at hb
  rcases hb with ((h | h) | h) | h <;> exact u32LEBytes_bytes_lt _ b h

/-- Helper: MD5 digests are 16 bytes long. -/
theorem md5Bytes_length (msg : List Nat) : (md5Bytes msg).length = 16 := by
  simp [md5Bytes, u32LEBytes]

/-- Helper: the folded `Md5Hasher` hash is a `u64` value. -/
theorem md5hasher_finish_lt (written : List Nat) :
    Md5Hasher.finish written < U64 := by
  have h1 : u64BE ((md5Bytes written).take 8) < U64 :=
    u64BE_lt _ (by simp [List.length_take, md5Bytes_length])
      fun b hb => md5Bytes_bytes_lt written b (List.take_subset _ _ hb)
  have h2 : u64BE ((md5Bytes written).drop 8) < U64 :=
    u64BE_lt _ (by simp [List.length_drop, md5Bytes_length])
      fun b hb => md5Bytes_bytes_lt written b (List.drop_subset _ _ hb)
  have h3 : U64 = 2 ^ 64 := by norm_num [U64]
  rw [h3] at h1 h2 ⊢
  exact Nat.xor_lt_two_pow h1 h2

/-- Helper: hex digit characters are lowercase hexadecimal. -/
theorem hexDigitChar_hex (r : Nat) (h : r < 16) :
    isLowerHexChar (hexDigitChar r) = true := by
  interval_cases r <;> decide

/-- Helper: every character produced by `hexDigitsCore` is a lowercase hex
digit. -/
theorem hexDigitsCore_all_hex (fuel : Nat) : ∀ n : Nat,
    (hexDigitsCore fuel n).all isLowerHexChar = true := by
  induction fuel with
  | zero => intro n; cases n <;> rfl
  | succ fuel ih =>
    intro n
    cases n with
    | zero => rfl
    | succ m =>
      rw [hexDigitsCore, List.all_append, ih]
      simp only [Bool.true_and, List.all_cons, List.all_nil, Bool.and_true]
      exact hexDigitChar_hex _ (Nat.mod_lt _ (by norm_num))

/-- Helper: with sufficient fuel, a number below `16 ^ k` has at most `k`
hex digits. -/
theorem hexDigitsCore_length_le (fuel : Nat) : ∀ n k : Nat, n ≤ fuel →
    n < 16 ^ k → (hexDigitsCore fuel n).length ≤ k := by
  induction fuel with
  | zero =>
    intro n k hn _
    interval_cases n
    simp [hexDigitsCore]
  | succ fuel ih =>
    intro n k hn hk
    cases n with
    | zero => simp [hexDigitsCore]
    | succ m =>
      cases k with
      | zero => simp at hk
      | succ j =>
        rw [hexDigitsCore, List.length_append, List.length_cons,
          List.length_nil]
        have hdiv : (m + 1) / 16 ≤ fuel := by
          have hlt : (m + 1) / 16 < m + 1 :=
            Nat.div_lt_self (Nat.succ_pos m) (by norm_num)
          omega
        have hk2 : (m + 1) / 16 < 16 ^ j := by
          rw [Nat.div_lt_iff_lt_mul (by norm_num : 0 < 16)]
          calc m + 1 < 16 ^ (j + 1) := hk
            _ = 16 ^ j * 16 := by ring
        have := ih ((m + 1) / 16) j hdiv hk2
        omega

/-- Helper: the `{:x}` rendering of a `u64` value is between 1 and 16
characters. -/
theorem formatHexLower_length (v : Nat) (hv : v < U64) :
    1 ≤ (formatHexLower v).length ∧ (formatHexLower v).length ≤ 16 := by
  unfold formatHexLower
  by_cases h0 : v = 0
  · rw [if_pos h0]
    exact ⟨by decide, by decide⟩
  · rw [if_neg h0]
    have h16 : (16 : Nat) ^ 16 = U64 := by norm_num [U64]
    have hlen : (hexDigits v).length ≤ 16 :=
      hexDigitsCore_length_le v v 16 (le_refl v) (by rw [h16]; exact hv)
    have hne : hexDigits v ≠ [] := by
      cases v with
      | zero => exact absurd rfl h0
      | succ m =>
        unfold hexDigits hexDigitsCore
        simp
    have hpos : 0 < (hexDigits v).length := List.length_pos.mpr hne
    exact ⟨hpos, hlen⟩

/-- Helper: the `{:x}` rendering consists of lowercase hex digits. -/
theorem formatHexLower_all_hex (v : Nat) :
    (formatHexLower v).data.all isLowerHexChar = true := by
  unfold formatHexLower
  by_cases h0 : v = 0
  · rw [if_pos h0]
    decide
  · rw [if_neg h0]
    exact hexDigitsCore_all_hex v v

set_option maxRecDepth 100000 in
/-- Claim C6 counterexample: the fingerprint is not a fixed-width string.
`format!("{:x}", _)` does not zero-pad, so two configs reachable through the
public API render fingerprints of different lengths: 16 hex digits for
`cfgWide` but only 15 for `cfgNarrow`, whose 64-bit hash is below `2 ^ 60`. -/
theorem fingerprint_not_fixed_width :
    (fingerprint cfgWide).length = 16 ∧ (fingerprint cfgNarrow).length = 15 ∧
      (fingerprint cfgNarrow).length ≠ (fingerprint cfgWide).length := by
  refine ⟨by decide, by decide, by decide⟩

/-- Claim C6 (amended): for every config, the derived cache file name is
`{prefix}-{fingerprint}.json` under the configured directory; the
fingerprint is identical for identical configs and is a nonempty lowercase
hexadecimal string of at most 16 digits — but of variable width, since the
`{:x}` rendering of the 64-bit hash drops leading zeros. -/
theorem cache_file_name_format (cfg cfg' : SsoConfig) (dir pfx : String) :
    (Cache.new (some dir) (encodeSsoConfig cfg)).filePath pfx =
        some (dir ++ "/" ++ pfx ++ "-" ++ fingerprint cfg ++ ".json") ∧
      (cfg = cfg' → fingerprint cfg = fingerprint cfg') ∧
      1 ≤ (fingerprint cfg).length ∧ (fingerprint cfg).length ≤ 16 ∧
      (fingerprint cfg).data.all isLowerHexChar = true := by
  have hfin := md5hasher_finish_lt (encodeSsoConfig cfg)
  have hlen := formatHexLower_length _ hfin
  exact ⟨rfl, fun h => h ▸ rfl, hlen.1, hlen.2, formatHexLower_all_hex _⟩

set_option maxRecDepth 100000 in
/-- Claim C6 witness: the amended theorem applied at a concrete config,
directory and prefix. -/
theorem cache_file_name_format_witness :
    fingerprint cfgWide = fingerprint cfgWide ∧
      (Cache.new (some "cache") (encodeSsoConfig cfgWide)).filePath "client" =
        some ("cache" ++ "/" ++ "client" ++ "-" ++ fingerprint cfgWide ++
          ".json") :=
  ⟨(cache_file_name_format cfgWide cfgWide "cache" "client").2.1 rfl,
    (cache_file_name_format cfgWide cfgWide "cache" "client").1⟩

end AwsSsoFlow
